import Mathlib

/-!
Shallow embedding of `union_cow.go` (package afero): the copy-on-write union
filesystem `CopyOnWriteUnionFs` over a base layer and an overlay layer.

The two layers are abstract filesystem capabilities.  Each is modelled as a
record `Fs σ` of operations over an explicit state type `σ`: the query
operations `Stat` and `Open` are pure functions of the state, and every
mutating operation returns the new layer state together with its result
(a Go `(X, error)` pair becomes `Except Err X`, a bare `error` becomes
`Option Err`, with `none` for Go's `nil`).  The union's own operations are
then functions from the pair of layer states to the pair of layer states
plus the operation's result, translated clause by clause from the Go source.

Go's `error` values that the source compares against (`syscall.ENOENT`,
`syscall.EPERM`, `syscall.EEXIST`) become dedicated constructors of `Err`;
every other collaborator error is `Err.other n`.  Go compares errors with
`==` (`switch err { case syscall.ENOENT: ... }`), which the embedding
mirrors with decidable equality on `Err`.

`time.Time` values and `os.FileMode` bit patterns are opaque to the source
(they are only passed through to the layers), so they are modelled as `Nat`.
Open flags are a genuine bit mask in the source
(`flag&(os.O_WRONLY|os.O_RDWR|os.O_APPEND|os.O_CREATE|os.O_TRUNC) != 0`),
so `flag` stays a `Nat` and the constants carry the values of Go's `os`
package on linux/amd64.
-/

namespace Afero

/-- Abstract error values.  `ENOENT`, `EPERM` and `EEXIST` are the three
`syscall` errors the source mentions; `other n` stands for any further
collaborator error, surfaced verbatim. -/
inductive Err : Type where
  | ENOENT : Err
  | EPERM : Err
  | EEXIST : Err
  | other : Nat → Err
deriving DecidableEq, Repr

/-- Abstract `os.FileInfo`: the source only ever asks `IsDir()` of it, or
returns it verbatim; `sys` tags distinct metadata values. -/
structure FileInfo : Type where
  isDir : Bool
  sys : Nat
deriving DecidableEq, Repr

/-- Abstract `afero.File` handles.  `handle n` is an opaque handle produced
by a layer; `union b l` is the merged directory handle the source builds as
`&UnionFile{base: bfile, layer: lfile}` (either side may be Go-`nil`,
modelled by `Option`). -/
inductive File : Type where
  | handle : Nat → File
  | union : Option File → Option File → File

/-- The abstract filesystem capability (Go interface `afero.Fs`), as a state
machine over a state type `σ`.  `Stat` and `Open` are queries (pure in the
state); every other operation returns the successor state first. -/
structure Fs (σ : Type) : Type where
  Stat : σ → String → Except Err FileInfo
  Open : σ → String → Except Err File
  OpenFile : σ → String → Nat → Nat → σ × Except Err File
  Create : σ → String → σ × Except Err File
  Remove : σ → String → σ × Option Err
  RemoveAll : σ → String → σ × Option Err
  Rename : σ → String → String → σ × Option Err
  Chtimes : σ → String → Nat → Nat → σ × Option Err
  Chmod : σ → String → Nat → σ × Option Err
  Mkdir : σ → String → Nat → σ × Option Err
  MkdirAll : σ → String → Nat → σ × Option Err

/-- Combined state of the two layers held by a `CopyOnWriteUnionFs`. -/
structure UnionState (σb σl : Type) : Type where
  base : σb
  layer : σl
deriving DecidableEq, Repr

/-- The union filesystem: a base `Fs` and an overlay (`layer`) `Fs`, as in
the Go struct.  `copy` is the package-level byte-copy collaborator
`copyToLayer(base, layer, name)`.

Modelled from the spec: the body of `copyToLayer` lives outside this file's
source; per the spec it reads content and metadata of `name` from the base
and writes an equivalent file into the overlay, so it is a function from the
base state and the overlay state to a new overlay state plus an error. -/
structure CopyOnWriteUnionFs (σb σl : Type) : Type where
  base : Fs σb
  layer : Fs σl
  copy : σb → σl → String → σl × Option Err

variable {σb σl : Type}

/-- Helper: apply a layer-state/result pair to the union state. -/
def setLayer {α : Type} (s : UnionState σb σl) (p : σl × α) :
    UnionState σb σl × α :=
  ({ s with layer := p.1 }, p.2)

/-- Helper: apply a base-state/result pair to the union state. -/
def setBase {α : Type} (s : UnionState σb σl) (p : σb × α) :
    UnionState σb σl × α :=
  ({ s with base := p.1 }, p.2)

/-- The error component of a Go `(X, error)` return. -/
def errOf {α : Type} : Except Err α → Option Err
  | Except.ok _ => none
  | Except.error e => some e

/-- Go `os` package open-flag constants (linux/amd64 values). -/
def O_RDONLY : Nat := 0

def O_WRONLY : Nat := 1

def O_RDWR : Nat := 2

def O_CREATE : Nat := 64

def O_TRUNC : Nat := 512

def O_APPEND : Nat := 1024

/-- The mask the source tests in `OpenFile`:
`os.O_WRONLY|os.O_RDWR|os.O_APPEND|os.O_CREATE|os.O_TRUNC`. -/
def writeFlagMask : Nat := O_WRONLY ||| O_RDWR ||| O_APPEND ||| O_CREATE ||| O_TRUNC

/-- Modelled from the spec: the helper `IsDir(fs, path)` used by `Open`,
`Mkdir` and `MkdirAll` is defined outside this file's source.  Per the spec
it determines whether the target is a directory by a metadata query:
a stat error is propagated, otherwise the entry's directory flag is
returned. -/
def IsDir (fs : Fs σb) (s : σb) (name : String) : Except Err Bool :=
  match fs.Stat s name with
  | Except.error e => Except.error e
  | Except.ok fi => Except.ok fi.isDir

/-- Go `isBaseFile`: if the overlay stat succeeds, `(false, nil)`;
otherwise (any overlay error) stat the base and return `(true, baseErr)`. -/
def CopyOnWriteUnionFs.isBaseFile (u : CopyOnWriteUnionFs σb σl)
    (s : UnionState σb σl) (name : String) : Bool × Option Err :=
  match u.layer.Stat s.layer name with
  | Except.ok _ => (false, none)
  | Except.error _ => (true, errOf (u.base.Stat s.base name))

/-- Go method `copyToLayer`: delegates to the package-level collaborator
with the receiver's base and layer. -/
def CopyOnWriteUnionFs.copyToLayer (u : CopyOnWriteUnionFs σb σl)
    (s : UnionState σb σl) (name : String) : UnionState σb σl × Option Err :=
  let p := u.copy s.base s.layer name
  ({ s with layer := p.1 }, p.2)

/-- Go `Chtimes`. -/
def CopyOnWriteUnionFs.Chtimes (u : CopyOnWriteUnionFs σb σl)
    (s : UnionState σb σl) (name : String) (atime mtime : Nat) :
    UnionState σb σl × Option Err :=
  let be := u.isBaseFile s name
  match be.2 with
  | some e => (s, some e)
  | none =>
    let cp := if be.1 then u.copyToLayer s name else (s, none)
    match cp.2 with
    | some e => (cp.1, some e)
    | none => setLayer cp.1 (u.layer.Chtimes cp.1.layer name atime mtime)

/-- Go `Chmod`. -/
def CopyOnWriteUnionFs.Chmod (u : CopyOnWriteUnionFs σb σl)
    (s : UnionState σb σl) (name : String) (mode : Nat) :
    UnionState σb σl × Option Err :=
  let be := u.isBaseFile s name
  match be.2 with
  | some e => (s, some e)
  | none =>
    let cp := if be.1 then u.copyToLayer s name else (s, none)
    match cp.2 with
    | some e => (cp.1, some e)
    | none => setLayer cp.1 (u.layer.Chmod cp.1.layer name mode)

/-- Go `Stat`: overlay first; on exactly `ENOENT` fall back to the base;
any other overlay error is returned as is. -/
def CopyOnWriteUnionFs.Stat (u : CopyOnWriteUnionFs σb σl)
    (s : UnionState σb σl) (name : String) :
    UnionState σb σl × Except Err FileInfo :=
  match u.layer.Stat s.layer name with
  | Except.ok fi => (s, Except.ok fi)
  | Except.error e =>
    if e = Err.ENOENT then (s, u.base.Stat s.base name)
    else (s, Except.error e)

/-- Go `Rename`: renaming a base-only file returns `EPERM`. -/
def CopyOnWriteUnionFs.Rename (u : CopyOnWriteUnionFs σb σl)
    (s : UnionState σb σl) (oldname newname : String) :
    UnionState σb σl × Option Err :=
  let be := u.isBaseFile s oldname
  match be.2 with
  | some e => (s, some e)
  | none =>
    if be.1 then (s, some Err.EPERM)
    else setLayer s (u.layer.Rename s.layer oldname newname)

/-- Go `Remove`: overlay removal first; on `ENOENT` the base is statted to
distinguish `EPERM` (protected base-only file) from `ENOENT`. -/
def CopyOnWriteUnionFs.Remove (u : CopyOnWriteUnionFs σb σl)
    (s : UnionState σb σl) (name : String) : UnionState σb σl × Option Err :=
  let lr := u.layer.Remove s.layer name
  if lr.2 = some Err.ENOENT then
    match u.base.Stat s.base name with
    | Except.ok _ => ({ s with layer := lr.1 }, some Err.EPERM)
    | Except.error _ => ({ s with layer := lr.1 }, some Err.ENOENT)
  else setLayer s lr

/-- Go `RemoveAll`: same shape as `Remove` with the recursive removal. -/
def CopyOnWriteUnionFs.RemoveAll (u : CopyOnWriteUnionFs σb σl)
    (s : UnionState σb σl) (name : String) : UnionState σb σl × Option Err :=
  let lr := u.layer.RemoveAll s.layer name
  if lr.2 = some Err.ENOENT then
    match u.base.Stat s.base name with
    | Except.ok _ => ({ s with layer := lr.1 }, some Err.EPERM)
    | Except.error _ => ({ s with layer := lr.1 }, some Err.ENOENT)
  else setLayer s lr

/-- Go `OpenFile`: with any write-intent flag, copy a base-only file up and
open on the overlay; with read-only flags, open on the base when base-only
and on the overlay otherwise. -/
def CopyOnWriteUnionFs.OpenFile (u : CopyOnWriteUnionFs σb σl)
    (s : UnionState σb σl) (name : String) (flag perm : Nat) :
    UnionState σb σl × Except Err File :=
  let be := u.isBaseFile s name
  match be.2 with
  | some e => (s, Except.error e)
  | none =>
    if flag &&& writeFlagMask ≠ 0 then
      let cp := if be.1 then u.copyToLayer s name else (s, none)
      match cp.2 with
      | some e => (cp.1, Except.error e)
      | none => setLayer cp.1 (u.layer.OpenFile cp.1.layer name flag perm)
    else if be.1 then setBase s (u.base.OpenFile s.base name flag perm)
    else setLayer s (u.layer.OpenFile s.layer name flag perm)

/-- Go `Open`: base-only paths open on the base; overlay non-directories
open on the overlay; overlay directories produce a merged `UnionFile` whose
base half may be absent (`bfile, _ := u.base.Open(name)` ignores the
base-side error, and the overlay-side error is fatal only when the
base-side handle is also `nil`). -/
def CopyOnWriteUnionFs.Open (u : CopyOnWriteUnionFs σb σl)
    (s : UnionState σb σl) (name : String) :
    UnionState σb σl × Except Err File :=
  let be := u.isBaseFile s name
  match be.2 with
  | some e => (s, Except.error e)
  | none =>
    if be.1 then (s, u.base.Open s.base name)
    else
      match IsDir u.layer s.layer name with
      | Except.error e => (s, Except.error e)
      | Except.ok dir =>
        if !dir then (s, u.layer.Open s.layer name)
        else
          let bfile := (u.base.Open s.base name).toOption
          match u.layer.Open s.layer name with
          | Except.error e =>
            if bfile.isNone then (s, Except.error e)
            else (s, Except.ok (File.union bfile none))
          | Except.ok lfile => (s, Except.ok (File.union bfile (some lfile)))

/-- Go `Mkdir`: probe the base with `IsDir`; an existing base directory
yields `EEXIST`, anything else delegates to the overlay's `MkdirAll`. -/
def CopyOnWriteUnionFs.Mkdir (u : CopyOnWriteUnionFs σb σl)
    (s : UnionState σb σl) (name : String) (perm : Nat) :
    UnionState σb σl × Option Err :=
  match IsDir u.base s.base name with
  | Except.error _ => setLayer s (u.layer.MkdirAll s.layer name perm)
  | Except.ok dir =>
    if dir then (s, some Err.EEXIST)
    else setLayer s (u.layer.MkdirAll s.layer name perm)

/-- Go `Name`. -/
def CopyOnWriteUnionFs.Name (_ : CopyOnWriteUnionFs σb σl) : String :=
  "CopyOnWriteUnionFs"

/-- Go `MkdirAll`: textually the same body as `Mkdir`. -/
def CopyOnWriteUnionFs.MkdirAll (u : CopyOnWriteUnionFs σb σl)
    (s : UnionState σb σl) (name : String) (perm : Nat) :
    UnionState σb σl × Option Err :=
  match IsDir u.base s.base name with
  | Except.error _ => setLayer s (u.layer.MkdirAll s.layer name perm)
  | Except.ok dir =>
    if dir then (s, some Err.EEXIST)
    else setLayer s (u.layer.MkdirAll s.layer name perm)

/-- Go `Create`: `if err == nil && b` copy the base file up (aborting on a
copy error), then always `u.layer.Create(name)` — in particular a failing
classification is discarded, not propagated. -/
def CopyOnWriteUnionFs.Create (u : CopyOnWriteUnionFs σb σl)
    (s : UnionState σb σl) (name : String) :
    UnionState σb σl × Except Err File :=
  let be := u.isBaseFile s name
  let cp := if be.2.isNone && be.1 then u.copyToLayer s name else (s, none)
  match cp.2 with
  | some e => (cp.1, Except.error e)
  | none => setLayer cp.1 (u.layer.Create cp.1.layer name)

/-! Concrete layer instances, used to evaluate the contract theorems on
concrete inputs. -/

/-- Metadata of a concrete plain file. -/
def plainInfo : FileInfo := { isDir := false, sys := 0 }

/-- Metadata of a concrete directory. -/
def dirInfo : FileInfo := { isDir := true, sys := 1 }

/-- A concrete layer on state `Unit` whose entries all carry metadata `fi`
and on which every operation succeeds. -/
def okFs (fi : FileInfo) : Fs Unit where
  Stat := fun _ _ => Except.ok fi
  Open := fun _ _ => Except.ok (File.handle 10)
  OpenFile := fun s _ _ _ => (s, Except.ok (File.handle 11))
  Create := fun s _ => (s, Except.ok (File.handle 12))
  Remove := fun s _ => (s, none)
  RemoveAll := fun s _ => (s, none)
  Rename := fun s _ _ => (s, none)
  Chtimes := fun s _ _ _ => (s, none)
  Chmod := fun s _ _ => (s, none)
  Mkdir := fun s _ _ => (s, none)
  MkdirAll := fun s _ _ => (s, none)

/-- A concrete layer on state `Unit` on which every operation fails with
the fixed error `e`. -/
def errFs (e : Err) : Fs Unit where
  Stat := fun _ _ => Except.error e
  Open := fun _ _ => Except.error e
  OpenFile := fun s _ _ _ => (s, Except.error e)
  Create := fun s _ => (s, Except.error e)
  Remove := fun s _ => (s, some e)
  RemoveAll := fun s _ => (s, some e)
  Rename := fun s _ _ => (s, some e)
  Chtimes := fun s _ _ _ => (s, some e)
  Chmod := fun s _ _ => (s, some e)
  Mkdir := fun s _ _ => (s, some e)
  MkdirAll := fun s _ _ => (s, some e)

/-- The trivial concrete union state. -/
def stU : UnionState Unit Unit := { base := (), layer := () }

/-- A byte-copy collaborator that always succeeds. -/
def copyOk : Unit → Unit → String → Unit × Option Err := fun _ l _ => (l, none)

/-- Union with a file in the base and an empty overlay: paths classify as
base-only. -/
def uBaseOnly : CopyOnWriteUnionFs Unit Unit :=
  { base := okFs plainInfo, layer := errFs Err.ENOENT, copy := copyOk }

/-- Union with a file in the overlay: paths classify as overlay-present. -/
def uOverlay : CopyOnWriteUnionFs Unit Unit :=
  { base := errFs Err.ENOENT, layer := okFs plainInfo, copy := copyOk }

/-- Union with a directory in the overlay and a directory in the base. -/
def uBothDirs : CopyOnWriteUnionFs Unit Unit :=
  { base := okFs dirInfo, layer := okFs dirInfo, copy := copyOk }

/-- Union with both layers empty: classification itself errors. -/
def uNeither : CopyOnWriteUnionFs Unit Unit :=
  { base := errFs Err.ENOENT, layer := errFs Err.ENOENT, copy := copyOk }

/-- Union whose overlay fails its stat with an error other than not-found
while the base holds the file. -/
def uOddOverlay : CopyOnWriteUnionFs Unit Unit :=
  { base := okFs plainInfo, layer := errFs (Err.other 7), copy := copyOk }

/-- A concrete empty overlay that accepts writes: stats report not-found,
but `Create` succeeds. -/
def emptyWritableFs : Fs Unit :=
  { errFs Err.ENOENT with Create := fun s _ => (s, Except.ok (File.handle 20)) }

/-- Union of an empty base and an empty but writable overlay: classification
fails with not-found on both layers. -/
def uFresh : CopyOnWriteUnionFs Unit Unit :=
  { base := errFs Err.ENOENT, layer := emptyWritableFs, copy := copyOk }

/-! Helper lemmas shared by the contract theorems. -/

theorem copyToLayer_base_eq (u : CopyOnWriteUnionFs σb σl)
    (s : UnionState σb σl) (name : String) :
    (u.copyToLayer s name).1.base = s.base := rfl

theorem setLayer_base_eq {α : Type} (s : UnionState σb σl) (p : σl × α) :
    (setLayer s p).1.base = s.base := rfl

/-!  Claim theorems. -/

/-- C4: `stat` queries the overlay first and returns its metadata on
success; exactly an overlay not-found error falls back to the base, whose
result (success or error) is returned verbatim; any other overlay error is
returned immediately without consulting the base.  The three cases are
exhaustive, so a successful base answer is reachable only through the
overlay-not-found branch; neither layer's state changes. -/
theorem stat_overlay_first (u : CopyOnWriteUnionFs σb σl)
    (s : UnionState σb σl) (name : String) :
    (∀ fi, u.layer.Stat s.layer name = Except.ok fi →
      u.Stat s name = (s, Except.ok fi)) ∧
    (u.layer.Stat s.layer name = Except.error Err.ENOENT →
      u.Stat s name = (s, u.base.Stat s.base name)) ∧
    (∀ e, e ≠ Err.ENOENT → u.layer.Stat s.layer name = Except.error e →
      u.Stat s name = (s, Except.error e)) := by
  refine ⟨fun fi h => ?_, fun h => ?_, fun e he h => ?_⟩
  · simp [CopyOnWriteUnionFs.Stat, h]
  · simp [CopyOnWriteUnionFs.Stat, h]
  · simp [CopyOnWriteUnionFs.Stat, h, he]

/-- Witness for C4: with a file in the overlay, `stat` returns the
overlay's metadata. -/
theorem stat_overlay_first_witness :
    uOverlay.Stat stU "p" = (stU, Except.ok plainInfo) :=
  (stat_overlay_first uOverlay stU "p").1 plainInfo rfl

/-- C2 counterexample: the claim says an overlay stat error other than
not-found is propagated out of `isBaseFile` so that the caller aborts with
it.  The source checks only `err == nil` and otherwise consults the base
unconditionally: with an overlay whose stat fails with `other 7` and a base
that holds the file, `isBaseFile` returns `(true, none)` — the overlay
error is discarded, the base was consulted, and no caller aborts. -/
theorem isBaseFile_cex :
    ¬ (∀ (u : CopyOnWriteUnionFs Unit Unit) (s : UnionState Unit Unit)
        (name : String) (e : Err), e ≠ Err.ENOENT →
        u.layer.Stat s.layer name = Except.error e →
        (u.isBaseFile s name).2 = some e) := by
  intro h
  have hc := h uOddOverlay stU "p" (Err.other 7) (by decide) rfl
  exact Option.noConfusion hc

/-- C2 as amended: `isBaseFile` returns `(false, nil)` when the overlay
stat succeeds; on any overlay stat error — not-found or otherwise — it
queries the base and returns `(true, baseError)`, never propagating the
overlay error itself. -/
theorem isBaseFile_contract (u : CopyOnWriteUnionFs σb σl)
    (s : UnionState σb σl) (name : String) :
    (∀ fi, u.layer.Stat s.layer name = Except.ok fi →
      u.isBaseFile s name = (false, none)) ∧
    (∀ e, u.layer.Stat s.layer name = Except.error e →
      u.isBaseFile s name = (true, errOf (u.base.Stat s.base name))) := by
  refine ⟨fun fi h => ?_, fun e h => ?_⟩ <;>
    simp [CopyOnWriteUnionFs.isBaseFile, h]

/-- Witness for the amended C2: an overlay failing with `other 7` still
yields `(true, baseError)` computed from the base. -/
theorem isBaseFile_contract_witness :
    uOddOverlay.isBaseFile stU "p" =
      (true, errOf (uOddOverlay.base.Stat stU.base "p")) :=
  (isBaseFile_contract uOddOverlay stU "p").2 (Err.other 7) rfl

/-- C6: renaming a path that classifies as base-only returns `EPERM` with
both layer states untouched (no overlay rename, no materialization);
renaming an overlay-present path delegates to the overlay's rename and
returns its result and state effect. -/
theorem rename_guard (u : CopyOnWriteUnionFs σb σl)
    (s : UnionState σb σl) (oldname newname : String) :
    (u.isBaseFile s oldname = (true, none) →
      u.Rename s oldname newname = (s, some Err.EPERM)) ∧
    (u.isBaseFile s oldname = (false, none) →
      u.Rename s oldname newname =
        setLayer s (u.layer.Rename s.layer oldname newname)) := by
  constructor <;> intro h <;> simp [CopyOnWriteUnionFs.Rename, h]

/-- Witness for C6: a base-only path is refused with `EPERM`. -/
theorem rename_guard_witness :
    uBaseOnly.Rename stU "p" "q" = (stU, some Err.EPERM) :=
  (rename_guard uBaseOnly stU "p" "q").1 rfl

/-- C5: `Remove` and `RemoveAll` try the overlay first; if the overlay
reports not-found they return `EPERM` when the base can stat the path and
`ENOENT` when it cannot; any other overlay outcome (success included) is
returned verbatim together with the overlay's state effect — the base is
never removed from, so a both-layer entry loses only its overlay copy. -/
theorem remove_guard (u : CopyOnWriteUnionFs σb σl)
    (s : UnionState σb σl) (name : String) :
    ((u.layer.Remove s.layer name).2 = some Err.ENOENT →
      (∀ fi, u.base.Stat s.base name = Except.ok fi →
        u.Remove s name =
          ({ s with layer := (u.layer.Remove s.layer name).1 },
            some Err.EPERM)) ∧
      (∀ e, u.base.Stat s.base name = Except.error e →
        u.Remove s name =
          ({ s with layer := (u.layer.Remove s.layer name).1 },
            some Err.ENOENT))) ∧
    ((u.layer.Remove s.layer name).2 ≠ some Err.ENOENT →
      u.Remove s name = setLayer s (u.layer.Remove s.layer name)) ∧
    ((u.layer.RemoveAll s.layer name).2 = some Err.ENOENT →
      (∀ fi, u.base.Stat s.base name = Except.ok fi →
        u.RemoveAll s name =
          ({ s with layer := (u.layer.RemoveAll s.layer name).1 },
            some Err.EPERM)) ∧
      (∀ e, u.base.Stat s.base name = Except.error e →
        u.RemoveAll s name =
          ({ s with layer := (u.layer.RemoveAll s.layer name).1 },
            some Err.ENOENT))) ∧
    ((u.layer.RemoveAll s.layer name).2 ≠ some Err.ENOENT →
      u.RemoveAll s name = setLayer s (u.layer.RemoveAll s.layer name)) := by
  refine ⟨fun h => ⟨fun fi hb => ?_, fun e hb => ?_⟩, fun h => ?_,
    fun h => ⟨fun fi hb => ?_, fun e hb => ?_⟩, fun h => ?_⟩ <;>
      simp [CopyOnWriteUnionFs.Remove, CopyOnWriteUnionFs.RemoveAll, h]
  all_goals simp [hb]

/-- Witness for C5: removing a base-only path returns `EPERM`. -/
theorem remove_guard_witness :
    uBaseOnly.Remove stU "p" =
      ({ stU with layer := (uBaseOnly.layer.Remove stU.layer "p").1 },
        some Err.EPERM) :=
  ((remove_guard uBaseOnly stU "p").1 rfl).1 plainInfo rfl

/-- C7: `Chtimes` and `Chmod` on a base-only path materialize the file into
the overlay first; a materialization error is returned with the final state
exactly the post-copy state, so the timestamp/permission change reaches
neither layer.  After a successful copy — or directly, when the path is
overlay-present — the change is applied to the overlay only. -/
theorem chtimes_chmod_cow (u : CopyOnWriteUnionFs σb σl)
    (s : UnionState σb σl) (name : String) (atime mtime mode : Nat) :
    (u.isBaseFile s name = (true, none) →
      (∀ e, (u.copyToLayer s name).2 = some e →
        u.Chtimes s name atime mtime = ((u.copyToLayer s name).1, some e) ∧
        u.Chmod s name mode = ((u.copyToLayer s name).1, some e)) ∧
      ((u.copyToLayer s name).2 = none →
        u.Chtimes s name atime mtime =
          setLayer (u.copyToLayer s name).1
            (u.layer.Chtimes (u.copyToLayer s name).1.layer name atime mtime) ∧
        u.Chmod s name mode =
          setLayer (u.copyToLayer s name).1
            (u.layer.Chmod (u.copyToLayer s name).1.layer name mode))) ∧
    (u.isBaseFile s name = (false, none) →
      u.Chtimes s name atime mtime =
        setLayer s (u.layer.Chtimes s.layer name atime mtime) ∧
      u.Chmod s name mode = setLayer s (u.layer.Chmod s.layer name mode)) := by
  refine ⟨fun h => ⟨fun e hc => ⟨?_, ?_⟩, fun hc => ⟨?_, ?_⟩⟩,
    fun h => ⟨?_, ?_⟩⟩
  · simp [CopyOnWriteUnionFs.Chtimes, h, hc]
  · simp [CopyOnWriteUnionFs.Chmod, h, hc]
  · simp [CopyOnWriteUnionFs.Chtimes, h, hc]
  · simp [CopyOnWriteUnionFs.Chmod, h, hc]
  · simp [CopyOnWriteUnionFs.Chtimes, h]
  · simp [CopyOnWriteUnionFs.Chmod, h]

/-- Witness for C7: on a base-only path with a succeeding copy, the change
lands on the overlay copy. -/
theorem chtimes_chmod_cow_witness :
    uBaseOnly.Chtimes stU "p" 3 4 =
      setLayer (uBaseOnly.copyToLayer stU "p").1
        (uBaseOnly.layer.Chtimes (uBaseOnly.copyToLayer stU "p").1.layer
          "p" 3 4) ∧
    uBaseOnly.Chmod stU "p" 420 =
      setLayer (uBaseOnly.copyToLayer stU "p").1
        (uBaseOnly.layer.Chmod (uBaseOnly.copyToLayer stU "p").1.layer
          "p" 420) :=
  ((chtimes_chmod_cow uBaseOnly stU "p" 3 4 420).1 rfl).2 rfl

/-- C9: `Mkdir` and `MkdirAll` have identical behavior: both probe the base
with the directory test; on a base lookup error (not-found included) or a
non-directory base entry they delegate to the overlay's recursive
`MkdirAll` and return its result; on an existing base directory they return
`EEXIST` with both layer states untouched. -/
theorem mkdir_mkdirAll_eq (u : CopyOnWriteUnionFs σb σl)
    (s : UnionState σb σl) (name : String) (perm : Nat) :
    u.Mkdir s name perm = u.MkdirAll s name perm ∧
    (∀ e, IsDir u.base s.base name = Except.error e →
      u.Mkdir s name perm = setLayer s (u.layer.MkdirAll s.layer name perm)) ∧
    (IsDir u.base s.base name = Except.ok false →
      u.Mkdir s name perm = setLayer s (u.layer.MkdirAll s.layer name perm)) ∧
    (IsDir u.base s.base name = Except.ok true →
      u.Mkdir s name perm = (s, some Err.EEXIST)) := by
  refine ⟨rfl, fun e h => ?_, fun h => ?_, fun h => ?_⟩ <;>
    simp [CopyOnWriteUnionFs.Mkdir, h]

/-- Witness for C9: over an existing base directory both creations report
`EEXIST`. -/
theorem mkdir_mkdirAll_eq_witness :
    uBothDirs.Mkdir stU "d" 493 = (stU, some Err.EEXIST) :=
  (mkdir_mkdirAll_eq uBothDirs stU "d" 493).2.2.2 rfl

/-- C10: when classification itself errors (in particular when the path is
in neither layer), `Create` discards the classification error and performs
no materialization: it delegates directly to the overlay's create and
returns its result. -/
theorem create_ignores_classification_error (u : CopyOnWriteUnionFs σb σl)
    (s : UnionState σb σl) (name : String) (e : Err)
    (h : (u.isBaseFile s name).2 = some e) :
    u.Create s name = setLayer s (u.layer.Create s.layer name) := by
  simp [CopyOnWriteUnionFs.Create, h]

/-- Witness for C10: with both layers empty, classification fails with
not-found, yet creating the brand-new file succeeds on the overlay. -/
theorem create_ignores_classification_error_witness :
    uFresh.Create stU "p" = (stU, Except.ok (File.handle 20)) :=
  (create_ignores_classification_error uFresh stU "p" Err.ENOENT rfl).trans rfl

/-- C3: `OpenFile` with any write-intent flag (write, read-write, append,
create or truncate) on a base-only path first materializes into the overlay
— a materialization error aborts the call with the post-copy state, no open
happening — and then opens on the overlay with the given flags; with
write-intent flags on an overlay-present path it opens directly on the
overlay; with read-only flags it opens on the base when base-only and on
the overlay otherwise. -/
theorem openFile_routing (u : CopyOnWriteUnionFs σb σl)
    (s : UnionState σb σl) (name : String) (flag perm : Nat) :
    (flag &&& writeFlagMask ≠ 0 →
      (u.isBaseFile s name = (true, none) →
        (∀ e, (u.copyToLayer s name).2 = some e →
          u.OpenFile s name flag perm =
            ((u.copyToLayer s name).1, Except.error e)) ∧
        ((u.copyToLayer s name).2 = none →
          u.OpenFile s name flag perm =
            setLayer (u.copyToLayer s name).1
              (u.layer.OpenFile (u.copyToLayer s name).1.layer
                name flag perm))) ∧
      (u.isBaseFile s name = (false, none) →
        u.OpenFile s name flag perm =
          setLayer s (u.layer.OpenFile s.layer name flag perm))) ∧
    (flag &&& writeFlagMask = 0 →
      (u.isBaseFile s name = (true, none) →
        u.OpenFile s name flag perm =
          setBase s (u.base.OpenFile s.base name flag perm)) ∧
      (u.isBaseFile s name = (false, none) →
        u.OpenFile s name flag perm =
          setLayer s (u.layer.OpenFile s.layer name flag perm))) := by
  refine ⟨fun hm => ⟨fun h => ⟨fun e hc => ?_, fun hc => ?_⟩, fun h => ?_⟩,
    fun hm => ⟨fun h => ?_, fun h => ?_⟩⟩
  · simp [CopyOnWriteUnionFs.OpenFile, hm, h, hc]
  · simp [CopyOnWriteUnionFs.OpenFile, hm, h, hc]
  · simp [CopyOnWriteUnionFs.OpenFile, hm, h]
  · simp [CopyOnWriteUnionFs.OpenFile, hm, h]
  · simp [CopyOnWriteUnionFs.OpenFile, hm, h]

/-- Witness for C3: opening a base-only file write-only (`O_WRONLY = 1`)
copies it up and opens the overlay copy. -/
theorem openFile_routing_witness :
    uBaseOnly.OpenFile stU "p" 1 438 =
      setLayer (uBaseOnly.copyToLayer stU "p").1
        (uBaseOnly.layer.OpenFile (uBaseOnly.copyToLayer stU "p").1.layer
          "p" 1 438) :=
  (((openFile_routing uBaseOnly stU "p" 1 438).1 (by decide)).1 rfl).2 rfl

/-- C8: `Open` on a base-only path opens directly on the base; on an
overlay-present non-directory it opens directly on the overlay; on an
overlay-present directory the base-side open is attempted with its error
ignored, the overlay-side open error is fatal only when the base-side
handle is also absent, and otherwise the merged `UnionFile` handle made of
the two (possibly absent) sides is returned — the sole branch that builds
the merged handle. -/
theorem open_merge (u : CopyOnWriteUnionFs σb σl)
    (s : UnionState σb σl) (name : String) :
    (u.isBaseFile s name = (true, none) →
      u.Open s name = (s, u.base.Open s.base name)) ∧
    (u.isBaseFile s name = (false, none) →
      (∀ e, IsDir u.layer s.layer name = Except.error e →
        u.Open s name = (s, Except.error e)) ∧
      (IsDir u.layer s.layer name = Except.ok false →
        u.Open s name = (s, u.layer.Open s.layer name)) ∧
      (IsDir u.layer s.layer name = Except.ok true →
        (∀ e, u.layer.Open s.layer name = Except.error e →
          ((u.base.Open s.base name).toOption = none →
            u.Open s name = (s, Except.error e)) ∧
          (∀ bf, (u.base.Open s.base name).toOption = some bf →
            u.Open s name =
              (s, Except.ok (File.union (some bf) none)))) ∧
        (∀ lf, u.layer.Open s.layer name = Except.ok lf →
          u.Open s name =
            (s, Except.ok
              (File.union (u.base.Open s.base name).toOption (some lf)))))) := by
  refine ⟨fun h => ?_,
    fun h => ⟨fun e hd => ?_, fun hd => ?_,
      fun hd => ⟨fun e hl => ⟨fun hb => ?_, fun bf hb => ?_⟩,
        fun lf hl => ?_⟩⟩⟩
  · simp [CopyOnWriteUnionFs.Open, h]
  · simp [CopyOnWriteUnionFs.Open, h, hd]
  · simp [CopyOnWriteUnionFs.Open, h, hd]
  · simp [CopyOnWriteUnionFs.Open, h, hd, hl, hb]
  · simp [CopyOnWriteUnionFs.Open, h, hd, hl, hb]
  · simp [CopyOnWriteUnionFs.Open, h, hd, hl]

/-- Witness for C8: a directory present in both layers opens as the merged
handle holding both sides. -/
theorem open_merge_witness :
    uBothDirs.Open stU "d" =
      (stU, Except.ok
        (File.union (uBothDirs.base.Open stU.base "d").toOption
          (some (File.handle 10)))) :=
  (((open_merge uBothDirs stU "d").2 rfl).2.2 rfl).2 (File.handle 10) rfl

/-! Base-state preservation, one lemma per operation; they are combined
into the single immutability theorem below. -/

theorem stat_preserves_base (u : CopyOnWriteUnionFs σb σl)
    (s : UnionState σb σl) (name : String) :
    (u.Stat s name).1.base = s.base := by
  simp only [CopyOnWriteUnionFs.Stat]
  repeat' split
  all_goals rfl

theorem open_preserves_base (u : CopyOnWriteUnionFs σb σl)
    (s : UnionState σb σl) (name : String) :
    (u.Open s name).1.base = s.base := by
  simp only [CopyOnWriteUnionFs.Open]
  repeat' split
  all_goals rfl

theorem openFile_preserves_base (u : CopyOnWriteUnionFs σb σl)
    (s : UnionState σb σl) (name : String) (flag perm : Nat)
    (hro : ∀ sb n f p, f &&& writeFlagMask = 0 →
      (u.base.OpenFile sb n f p).1 = sb) :
    (u.OpenFile s name flag perm).1.base = s.base := by
  simp only [CopyOnWriteUnionFs.OpenFile]
  split
  · rfl
  · split
    · split
      · split <;> rfl
      · split <;> rfl
    · next hm =>
      split
      · simp only [setBase]
        exact hro _ _ _ _ (not_ne_iff.mp hm)
      · rfl

theorem create_preserves_base (u : CopyOnWriteUnionFs σb σl)
    (s : UnionState σb σl) (name : String) :
    (u.Create s name).1.base = s.base := by
  simp only [CopyOnWriteUnionFs.Create]
  repeat' split
  all_goals rfl

theorem remove_preserves_base (u : CopyOnWriteUnionFs σb σl)
    (s : UnionState σb σl) (name : String) :
    (u.Remove s name).1.base = s.base := by
  simp only [CopyOnWriteUnionFs.Remove]
  repeat' split
  all_goals rfl

theorem removeAll_preserves_base (u : CopyOnWriteUnionFs σb σl)
    (s : UnionState σb σl) (name : String) :
    (u.RemoveAll s name).1.base = s.base := by
  simp only [CopyOnWriteUnionFs.RemoveAll]
  repeat' split
  all_goals rfl

theorem rename_preserves_base (u : CopyOnWriteUnionFs σb σl)
    (s : UnionState σb σl) (oldname newname : String) :
    (u.Rename s oldname newname).1.base = s.base := by
  simp only [CopyOnWriteUnionFs.Rename]
  repeat' split
  all_goals rfl

theorem chtimes_preserves_base (u : CopyOnWriteUnionFs σb σl)
    (s : UnionState σb σl) (name : String) (atime mtime : Nat) :
    (u.Chtimes s name atime mtime).1.base = s.base := by
  simp only [CopyOnWriteUnionFs.Chtimes]
  repeat' split
  all_goals rfl

theorem chmod_preserves_base (u : CopyOnWriteUnionFs σb σl)
    (s : UnionState σb σl) (name : String) (mode : Nat) :
    (u.Chmod s name mode).1.base = s.base := by
  simp only [CopyOnWriteUnionFs.Chmod]
  repeat' split
  all_goals rfl

theorem mkdir_preserves_base (u : CopyOnWriteUnionFs σb σl)
    (s : UnionState σb σl) (name : String) (perm : Nat) :
    (u.Mkdir s name perm).1.base = s.base := by
  simp only [CopyOnWriteUnionFs.Mkdir]
  repeat' split
  all_goals rfl

theorem mkdirAll_preserves_base (u : CopyOnWriteUnionFs σb σl)
    (s : UnionState σb σl) (name : String) (perm : Nat) :
    (u.MkdirAll s name perm).1.base = s.base := by
  simp only [CopyOnWriteUnionFs.MkdirAll]
  repeat' split
  all_goals rfl

/-- C1: for every public operation and every starting state of the two
layers, the base layer's state after the operation equals its state before.
`Stat` and `Open` on a layer are queries (pure in the state by the
capability model); the only further base call the core makes is
`OpenFile` with read-only flags, so the single hypothesis states that a
read-only base open does not change the base state, and no mutating base
operation is invoked on any code path. -/
theorem base_never_mutated (u : CopyOnWriteUnionFs σb σl)
    (s : UnionState σb σl) (name oldname newname : String)
    (flag perm atime mtime mode dperm : Nat)
    (hro : ∀ sb n f p, f &&& writeFlagMask = 0 →
      (u.base.OpenFile sb n f p).1 = sb) :
    (u.Stat s name).1.base = s.base ∧
    (u.Open s name).1.base = s.base ∧
    (u.OpenFile s name flag perm).1.base = s.base ∧
    (u.Create s name).1.base = s.base ∧
    (u.Remove s name).1.base = s.base ∧
    (u.RemoveAll s name).1.base = s.base ∧
    (u.Rename s oldname newname).1.base = s.base ∧
    (u.Chtimes s name atime mtime).1.base = s.base ∧
    (u.Chmod s name mode).1.base = s.base ∧
    (u.Mkdir s name dperm).1.base = s.base ∧
    (u.MkdirAll s name dperm).1.base = s.base :=
  ⟨stat_preserves_base u s name, open_preserves_base u s name,
    openFile_preserves_base u s name flag perm hro,
    create_preserves_base u s name, remove_preserves_base u s name,
    removeAll_preserves_base u s name,
    rename_preserves_base u s oldname newname,
    chtimes_preserves_base u s name atime mtime,
    chmod_preserves_base u s name mode,
    mkdir_preserves_base u s name dperm,
    mkdirAll_preserves_base u s name dperm⟩

/-- Witness for C1, on the base-only concrete union (whose base is a pure
query layer) with a read-only flag. -/
theorem base_never_mutated_witness :
    (uBaseOnly.Stat stU "p").1.base = stU.base ∧
    (uBaseOnly.Open stU "p").1.base = stU.base ∧
    (uBaseOnly.OpenFile stU "p" 0 438).1.base = stU.base ∧
    (uBaseOnly.Create stU "p").1.base = stU.base ∧
    (uBaseOnly.Remove stU "p").1.base = stU.base ∧
    (uBaseOnly.RemoveAll stU "p").1.base = stU.base ∧
    (uBaseOnly.Rename stU "p" "q").1.base = stU.base ∧
    (uBaseOnly.Chtimes stU "p" 3 4).1.base = stU.base ∧
    (uBaseOnly.Chmod stU "p" 420).1.base = stU.base ∧
    (uBaseOnly.Mkdir stU "p" 493).1.base = stU.base ∧
    (uBaseOnly.MkdirAll stU "p" 493).1.base = stU.base :=
  base_never_mutated uBaseOnly stU "p" "p" "q" 0 438 3 4 420 493
    (fun _ _ _ _ _ => rfl)

end Afero
